import Mathlib

/-! Verification of the dbop-core retry executor against its specification.

The development shallowly embeds the Python sources:
  * `src/dbop_core/core.py` — `RetryPolicy.backoff` and the retry loop of
    `execute` (attempts, classifier, backoff sleeps, `asyncio.wait_for`
    deadline, `raises`/`default` policy);
  * `src/dbop_core/classify.py` — `dbapi_classifier`;
  * `src/dbop_core/contrib/dbapi_adapter.py` — `attempt_scope_sync`.

Python floats are modelled as rationals, exceptions as explicit error
values (`Except`), and the nondeterministic pieces (random jitter draws,
random savepoint suffixes, wall-clock durations) as explicit parameters.
Definitions come first, followed by all theorems. -/

namespace Dbop

/-! Part 1: RetryPolicy (`core.py`, lines 10-22). -/

/-- The `RetryPolicy` dataclass from `core.py`.  Delays are seconds,
modelled as rationals. -/
structure RetryPolicy where
  max_retries : Nat
  initial_delay : Rat
  max_delay : Rat
  jitter : Rat
deriving Repr, DecidableEq

/-- One iteration step of the generator body of `RetryPolicy.backoff`:
`d = min(self.max_delay, d * 2)`. -/
def backoffStep (p : RetryPolicy) (d : Rat) : Rat :=
  min p.max_delay (d * 2)

/-- The loop of `RetryPolicy.backoff`, unrolled from current doubling
value `d`; `draw i j` models `random.uniform(-j, j)` for the `i`-th
iteration (the sampled offset), with `j = d * self.jitter`.
Each emitted value is `max(0.0, min(self.max_delay, d + draw))`. -/
def backoffFrom (p : RetryPolicy) (draw : Nat → Rat → Rat) : Nat → Nat → Rat → List Rat
  | 0, _, _ => []
  | n + 1, i, d =>
      max 0 (min p.max_delay (d + draw i (d * p.jitter)))
        :: backoffFrom p draw n (i + 1) (backoffStep p d)

/-- Model of `RetryPolicy.backoff` from `core.py`: yields `max_retries`
delays, starting the doubling at `initial_delay`. -/
def RetryPolicy.backoff (p : RetryPolicy) (draw : Nat → Rat → Rat) : List Rat :=
  backoffFrom p draw p.max_retries 0 p.initial_delay

/-! Part 2: the reference DB-API classifier (`classify.py`). -/

/-- Attributes of the exception's wrapped cause (`exc.orig`) that
`dbapi_classifier` reads: `pgcode`, `args` and the type name.
An `args` entry is `some n` when `int()` applied to the original Python
value yields `n`, and `none` when that conversion raises. -/
structure PyOrig where
  typeName : String
  pgcode : Option String
  args : List (Option Int)
deriving Repr, DecidableEq

/-- Attributes of a Python exception that `dbapi_classifier` reads:
`str(exc)`, the type name, `pgcode`, `sqlstate`, `args`, and the wrapped
cause `orig`. -/
structure PyErr where
  msg : String
  typeName : String
  pgcode : Option String
  sqlstate : Option String
  args : List (Option Int)
  orig : Option PyOrig
deriving Repr, DecidableEq

/-- Python `s.lower()` on a string. -/
def lowerStr (s : String) : String := ⟨s.data.map Char.toLower⟩

/-- Whether `p` is an initial segment of `l` (character lists). -/
def listPrefixAt : List Char → List Char → Bool
  | [], _ => true
  | _ :: _, [] => false
  | p :: ps, c :: cs => p == c && listPrefixAt ps cs

/-- Whether `pat` occurs contiguously inside `l` (character lists). -/
def containsSub : List Char → List Char → Bool
  | [], pat => pat == []
  | c :: rest, pat => listPrefixAt pat (c :: rest) || containsSub rest pat

/-- Python `pat in s` on strings (substring containment). -/
def strContains (s pat : String) : Bool := containsSub s.data pat.data

/-- Python truthiness of an optional string: `None` and the empty string
are falsy. -/
def pyTruthy : Option String → Bool
  | none => false
  | some s => s != ""

/-- Python `a or b` on optional strings. -/
def pyOr (a b : Option String) : Option String := if pyTruthy a then a else b

/-- Model of the SQLSTATE extraction of `classify.py`:
`getattr(exc, "pgcode", None) or getattr(exc, "sqlstate", None) or
getattr(getattr(exc, "orig", None), "pgcode", None)`. -/
def pgAttr (e : PyErr) : Option String :=
  pyOr (pyOr e.pgcode e.sqlstate)
    (match e.orig with
     | none => none
     | some o => o.pgcode)

/-- The MySQL/MariaDB `errno` extraction of `classify.py`: first try
`int(exc.orig.args[0])` (failures swallowed), then `int(exc.args[0])`. -/
def extractErrno (e : PyErr) : Option Int :=
  let fromOrig : Option Int :=
    match e.orig with
    | none => none
    | some o =>
      match o.args with
      | [] => none
      | a :: _ => a
  match fromOrig with
  | some n => some n
  | none =>
    match e.args with
    | [] => none
    | a :: _ => a

/-- The two type names the generic fallback inspects: the exception's own
and the wrapped cause's (the empty string when there is no cause). -/
def typeNames (e : PyErr) : List String :=
  [e.typeName, match e.orig with
               | none => ""
               | some o => o.typeName]

/-- Translation of `dbapi_classifier` from `classify.py`, branch by
branch (each `return True` becomes the `then true` arm of the
corresponding test, in source order). -/
def dbapi_classifier (e : PyErr) : Bool :=
  if (match pgAttr e with
      | some s => ["40P01", "55P03", "40001"].contains s
      | none => false) then true
  else if strContains (lowerStr e.msg) "canceling statement due to statement timeout" then true
  else if strContains (lowerStr e.msg) "deadlock detected"
      || strContains (lowerStr e.msg) "canceling statement due to lock timeout" then true
  else if (match extractErrno e with
           | some n => [(1213 : Int), 1205, 3572, 2006, 2013].contains n
           | none => false) then true
  else if strContains (lowerStr e.msg) "nowait is set"
      || strContains (lowerStr e.msg) "deadlock"
      || strContains (lowerStr e.msg) "lock wait timeout" then true
  else if strContains (lowerStr e.msg) "database is locked" then true
  else if (typeNames e).any
        (fun n => ["OperationalError", "InterfaceError", "TimeoutError"].contains n) then
    if ["timeout", "deadlock", "lock wait", "gone away", "lost connection",
        "connection reset"].any (fun t => strContains (lowerStr e.msg) t) then true
    else false
  else false

/-- Modelled from the spec, section 4.2: the classifier decision as the
plain disjunction of the seven listed signals, over the same raw
observations of the exception object. -/
def dbapi_classifier_spec (e : PyErr) : Bool :=
  (match pgAttr e with
   | some s => ["40P01", "55P03", "40001"].contains s
   | none => false)
  || strContains (lowerStr e.msg) "canceling statement due to statement timeout"
  || strContains (lowerStr e.msg) "deadlock detected"
  || strContains (lowerStr e.msg) "canceling statement due to lock timeout"
  || (match extractErrno e with
      | some n => [(1213 : Int), 1205, 3572, 2006, 2013].contains n
      | none => false)
  || strContains (lowerStr e.msg) "nowait is set"
  || strContains (lowerStr e.msg) "deadlock"
  || strContains (lowerStr e.msg) "lock wait timeout"
  || strContains (lowerStr e.msg) "database is locked"
  || ((typeNames e).any
        (fun n => ["OperationalError", "InterfaceError", "TimeoutError"].contains n)
      && ["timeout", "deadlock", "lock wait", "gone away", "lost connection",
          "connection reset"].any (fun t => strContains (lowerStr e.msg) t))

/-- A bare Postgres-style error exposing only a SQLSTATE code. -/
def pgCodeErr (code : String) : PyErr :=
  { msg := "", typeName := "Error", pgcode := some code, sqlstate := none,
    args := [], orig := none }

/-! Part 3: the retry executor (`core.py`, `execute`, lines 33-90).

The attempt body (`_wrapped_once`: scope enter, `pre_attempt`, the user
operation, scope exit) is abstracted as a per-attempt outcome `op k`
together with a wall-time duration `dur k`; `asyncio.wait_for`, the
`retry_on` / `except Exception` handlers, the classifier consultation and
the backoff sleeps are modelled explicitly.  Exceptions are values of an
abstract type `E`; `retryOn e` models `isinstance(e, retry_on)` and
`isExc e` models `isinstance(e, Exception)`.  A classifier that raises is
modelled by `Except.error`. -/

/-- What a call to `execute` does from the caller's point of view:
return a value, or let an exception propagate. -/
inductive Outcome (α E : Type) where
  | ok (v : α)
  | raised (e : E)
deriving Repr, DecidableEq

/-- Observable counters of one `execute` call: attempt-body invocations,
backoff sleeps, classifier consultations, and total wall time (attempt
durations plus sleep durations, in seconds). -/
structure ExecStats where
  attempts : Nat
  sleeps : Nat
  classifierCalls : Nat
  elapsed : Rat
deriving Repr, DecidableEq

/-- The caller-supplied environment of one `execute` call. -/
structure ExecEnv (α E : Type) where
  op : Nat → Except E α
  dur : Nat → Rat
  retryOn : E → Bool
  isExc : E → Bool
  classifier : Option (E → Except E Bool)
  raises : Bool
  dflt : α
  timeoutErr : E

/-- Model of `_with_deadline(_wrapped_once())` for attempt `k`: without a
timeout the attempt runs to completion; with `overall_timeout_s = T`,
`asyncio.wait_for` lets the attempt finish when it fits in `T` and
otherwise cancels it after `T` seconds, raising `asyncio.TimeoutError`.
Returns the attempt's outcome and the wall time it consumed. -/
def attemptRes (env : ExecEnv α E) (tmo : Option Rat) (k : Nat) : Except E α × Rat :=
  match tmo with
  | none => (env.op k, env.dur k)
  | some T => if env.dur k ≤ T then (env.op k, env.dur k) else (Except.error env.timeoutErr, T)

/-- Terminal outcome of the retry loop: `raise` when `raises` else
`return default`. -/
def termOutcome (env : ExecEnv α E) (exc : E) : Outcome α E :=
  if env.raises then Outcome.raised exc else Outcome.ok env.dflt

/-- The `for delay in (*policy.backoff(), None)` loop of `execute`,
starting at attempt number `k`.  The list holds the remaining delays,
with `none` as the final sentinel (`delay is None`); the sentinel never
recurses, so the `[]` case is unreachable when called on
`delays.map some ++ [none]`. -/
def executeFrom (env : ExecEnv α E) (tmo : Option Rat) :
    List (Option Rat) → Nat → Outcome α E × ExecStats
  | [], _ => (Outcome.ok env.dflt, ⟨0, 0, 0, 0⟩)
  | d? :: rest, k =>
    match (attemptRes env tmo k).1, (attemptRes env tmo k).2 with
    | Except.ok v, e => (Outcome.ok v, ⟨1, 0, 0, e⟩)
    | Except.error exc, e =>
      if env.retryOn exc then
        match env.classifier with
        | none =>
          -- the source sets is_transient to True without a classifier call
          match d? with
          | none => (termOutcome env exc, ⟨1, 0, 0, e⟩)
          | some d =>
            let os := executeFrom env tmo rest (k + 1)
            (os.1, ⟨os.2.attempts + 1, os.2.sleeps + 1, os.2.classifierCalls,
                    os.2.elapsed + e + d⟩)
        | some c =>
          match c exc with
          | Except.error e2 =>
            -- the classifier itself raised inside the except handler
            (Outcome.raised e2, ⟨1, 0, 1, e⟩)
          | Except.ok t =>
            if t then
              match d? with
              | none => (termOutcome env exc, ⟨1, 0, 1, e⟩)
              | some d =>
                let os := executeFrom env tmo rest (k + 1)
                (os.1, ⟨os.2.attempts + 1, os.2.sleeps + 1, os.2.classifierCalls + 1,
                        os.2.elapsed + e + d⟩)
            else (termOutcome env exc, ⟨1, 0, 1, e⟩)
      else if env.isExc exc then (termOutcome env exc, ⟨1, 0, 0, e⟩)
      else (Outcome.raised exc, ⟨1, 0, 0, e⟩)

/-- Model of `execute` from `core.py`, given the concrete backoff delays
produced by `policy.backoff()`. -/
def execute (env : ExecEnv α E) (tmo : Option Rat) (delays : List Rat) :
    Outcome α E × ExecStats :=
  executeFrom env tmo (delays.map some ++ [none]) 0

/-- Sum of the `some` entries of the delay list. -/
def optSum : List (Option Rat) → Rat
  | [] => 0
  | none :: r => optSum r
  | some d :: r => d + optSum r

/-- Attempt `j` fails with `e`, `e` is in `retry_on`, and the classifier
(when supplied) judges it transient. -/
def transientFail (env : ExecEnv α E) (tmo : Option Rat) (j : Nat) (e : E) : Prop :=
  (attemptRes env tmo j).1 = Except.error e ∧ env.retryOn e = true ∧
    ∀ c, env.classifier = some c → c e = Except.ok true

/-- Environment for the C5 witness, part 1: first failure judged
non-transient by the classifier, `raises = true`. -/
def envC5a : ExecEnv Nat String :=
  { op := fun _ => Except.error ("boom"), dur := fun _ => 0,
    retryOn := fun _ => true, isExc := fun _ => true,
    classifier := some (fun _ => Except.ok false),
    raises := true, dflt := 0, timeoutErr := "tmo" }

/-- Environment for the C5 witness, part 2: every attempt fails
transiently, `raises = false`, `default = 42`. -/
def envC5b : ExecEnv Nat String :=
  { op := fun _ => Except.error ("always"), dur := fun _ => 0,
    retryOn := fun _ => true, isExc := fun _ => true,
    classifier := some (fun _ => Except.ok true),
    raises := false, dflt := 42, timeoutErr := "tmo" }

/-- Environment for the C2 counterexample: an `Exception` outside
`retry_on` under `raises = false` with `default = 7`. -/
def envC2 : ExecEnv Nat String :=
  { op := fun _ => Except.error ("oops"), dur := fun _ => 0,
    retryOn := fun _ => false, isExc := fun _ => true,
    classifier := none, raises := false, dflt := 7, timeoutErr := "tmo" }

/-- Environment for the C9 counterexample: the classifier raises on the
first failure, under `raises = false` with `default = 7`. -/
def envC9 : ExecEnv Nat String :=
  { op := fun _ => Except.error ("orig"), dur := fun _ => 0,
    retryOn := fun _ => true, isExc := fun _ => true,
    classifier := some (fun _ => Except.error ("clsboom")),
    raises := false, dflt := 7, timeoutErr := "tmo" }

/-- Environment for the C1 counterexample and witness: every attempt
takes 20 s of wall time, `overall_timeout_s = 10`, one backoff delay of
10 s.  Both attempts are cut off at 10 s and classified transient
(`retry_on` catches everything, no classifier). -/
def envC1 : ExecEnv Nat String :=
  { op := fun _ => Except.error ("slow"), dur := fun _ => 20,
    retryOn := fun _ => true, isExc := fun _ => true,
    classifier := none, raises := true, dflt := 0, timeoutErr := "tmo" }

/-! Part 4: the DB-API transactional scope (`contrib/dbapi_adapter.py`). -/

/-- One observable operation on the connection: a `cur.execute(sql)`
call, a `conn.commit()` call, or a `conn.rollback()` call.  The
transcript records every operation *attempted*, whether or not it then
raised. -/
inductive SqlEvent where
  | sql (s : String)
  | commit
  | rollback
deriving Repr, DecidableEq

/-- A PEP 249 connection as `attempt_scope_sync` sees it: the two
feature flags read via `getattr`, plus fault switches describing which
SQL statements (by exact text) and which commit/rollback calls raise. -/
structure Conn where
  supports_savepoint : Bool
  fail_savepoint : Bool
  failOn : String → Bool
  commitFails : Bool
  rollbackFails : Bool

/-- What can propagate out of the scope: the user body's own failure, a
cursor-execute failure at an unsuppressed site (only `BEGIN`), or a
commit failure. -/
inductive ScopeErr (β : Type) where
  | body (b : β)
  | sqlFail (s : String)
  | commitFail
deriving Repr, DecidableEq

deriving instance DecidableEq for Except

/-- Model of `attempt_scope_sync` from `contrib/dbapi_adapter.py`.

Here `suffix` models the random suffix produced by `_sp_name` (the
savepoint name is `"dbop_" ++ suffix`), and `body` the outcome of the
user code run at the `yield`.  Returns the transcript of operations
attempted on the connection and the scope's final outcome.

Control flow mirrors the source: `BEGIN` is unguarded (its failure
aborts scope entry); `SET TRANSACTION READ ONLY` is attempted only for
the postgresql/mysql/mariadb backends and is suppressed; the savepoint
is attempted only when `supports_savepoint and not fail_savepoint`, its
failure suppressed (`sp = None`).  The whole success path — the `yield`,
the suppressed `RELEASE SAVEPOINT`, and `conn.commit()` — runs inside
the `try`, so a failing commit enters the same `except Exception` block
as a failing body: that block attempts `ROLLBACK TO SAVEPOINT` when `sp`
is set and then `conn.rollback()`, both suppressed, and re-raises the
original exception (the body's, or the commit's). -/
def attempt_scope_sync (conn : Conn) (read_only : Bool) (backend : String)
    (suffix : String) (body : Except β Unit) :
    List SqlEvent × Except (ScopeErr β) Unit :=
  let be := lowerStr backend
  let sp_supported := conn.supports_savepoint && !conn.fail_savepoint
  if conn.failOn ("BEGIN") then
    ([SqlEvent.sql ("BEGIN")], Except.error (ScopeErr.sqlFail ("BEGIN")))
  else
    let name := "dbop_" ++ suffix
    let t1 := [SqlEvent.sql ("BEGIN")]
      ++ (if read_only && ["postgresql", "mysql", "mariadb"].contains be
          then [SqlEvent.sql ("SET TRANSACTION READ ONLY")] else [])
    let t2 := t1 ++ (if sp_supported then [SqlEvent.sql ("SAVEPOINT " ++ name)] else [])
    let sp : Option String :=
      if sp_supported && !conn.failOn ("SAVEPOINT " ++ name) then some name else none
    match body with
    | Except.ok _ =>
      let t3 := t2 ++ (match sp with
                       | some n => [SqlEvent.sql ("RELEASE SAVEPOINT " ++ n)]
                       | none => [])
      let t4 := t3 ++ [SqlEvent.commit]
      if conn.commitFails then
        -- conn.commit() raised inside the try, so the except block runs:
        -- ROLLBACK TO SAVEPOINT when sp is set (suppressed), then
        -- conn.rollback() (suppressed), then the commit error re-raises
        let t5 := t4 ++ (match sp with
                         | some n => [SqlEvent.sql ("ROLLBACK TO SAVEPOINT " ++ n)]
                         | none => [])
        (t5 ++ [SqlEvent.rollback], Except.error ScopeErr.commitFail)
      else (t4, Except.ok ())
    | Except.error b =>
      let t3 := t2 ++ (match sp with
                       | some n => [SqlEvent.sql ("ROLLBACK TO SAVEPOINT " ++ n)]
                       | none => [])
      let t4 := t3 ++ [SqlEvent.rollback]
      (t4, Except.error (ScopeErr.body b))

/-- Connection for the C7 witness: savepoints supported, but the
`ROLLBACK TO SAVEPOINT` statement and `conn.rollback()` both fail. -/
def connC7 : Conn :=
  { supports_savepoint := true, fail_savepoint := false,
    failOn := fun s => s == "ROLLBACK TO SAVEPOINT dbop_x",
    commitFails := false, rollbackFails := true }

/-- A clean connection: savepoints supported, nothing fails. -/
def connClean : Conn :=
  { supports_savepoint := true, fail_savepoint := false,
    failOn := fun _ => false, commitFails := false, rollbackFails := false }

/-- Connection for the C10 witness: the `fail_savepoint` flag is set, as
in the repository's own fake-connection test. -/
def connC10 : Conn :=
  { supports_savepoint := true, fail_savepoint := true,
    failOn := fun _ => false, commitFails := false, rollbackFails := false }

/-- Connection for the C10 witness, commit-failure case: savepoints
unsupported and `conn.commit()` failing, so the scope's except block
attempts the rollback before the commit error propagates. -/
def connC10b : Conn :=
  { supports_savepoint := false, fail_savepoint := false,
    failOn := fun _ => false, commitFails := true, rollbackFails := false }

/-! Part 5: theorems. -/

theorem backoffFrom_length (p : RetryPolicy) (draw : Nat → Rat → Rat) :
    ∀ n i d, (backoffFrom p draw n i d).length = n := by
  intro n
  induction n with
  | zero => intro i d; rfl
  | succ m ih => intro i d; simp [backoffFrom, ih]

theorem backoff_length (p : RetryPolicy) (draw : Nat → Rat → Rat) :
    (p.backoff draw).length = p.max_retries :=
  backoffFrom_length p draw p.max_retries 0 p.initial_delay

/-- With `jitter = 0`, every uniform draw is `0`, and the loop emits the
closed form `min (max_delay) (d · 2^k)`. -/
theorem backoffFrom_zero_jitter (p : RetryPolicy) (draw : Nat → Rat → Rat)
    (hj : p.jitter = 0)
    (hdraw : ∀ i j, 0 ≤ j → -j ≤ draw i j ∧ draw i j ≤ j)
    (hM : 0 ≤ p.max_delay) :
    ∀ n i d, 0 ≤ d →
      backoffFrom p draw n i d
        = (List.range n).map (fun k => min p.max_delay (d * 2 ^ k)) := by
  intro n
  induction n with
  | zero => intro i d _; rfl
  | succ m ih =>
    intro i d hd
    have hdraw0 : draw i (d * p.jitter) = 0 := by
      have h0 : d * p.jitter = 0 := by rw [hj, mul_zero]
      rw [h0]
      rcases hdraw i 0 le_rfl with ⟨h1, h2⟩
      exact le_antisymm h2 (by simpa using h1)
    have hstep : 0 ≤ backoffStep p d := by
      have : 0 ≤ d * 2 := by positivity
      exact le_min hM this
    have hhead : max 0 (min p.max_delay (d + draw i (d * p.jitter)))
        = min p.max_delay (d * 2 ^ 0) := by
      rw [hdraw0, add_zero, pow_zero, mul_one]
      exact max_eq_right (le_min hM hd)
    have htail : ∀ k, min p.max_delay (backoffStep p d * 2 ^ k)
        = min p.max_delay (d * 2 ^ (k + 1)) := by
      intro k
      unfold backoffStep
      rcases le_or_lt (d * 2) p.max_delay with hle | hlt
      · rw [min_eq_right hle]
        congr 1
        ring
      · rw [min_eq_left hlt.le]
        have h2k : (1 : Rat) ≤ 2 ^ k := one_le_pow₀ (by norm_num)
        have hML : p.max_delay ≤ p.max_delay * 2 ^ k := le_mul_of_one_le_right hM h2k
        have hMR : p.max_delay ≤ d * 2 ^ (k + 1) := by
          calc p.max_delay ≤ p.max_delay * 2 ^ k := hML
          _ ≤ (d * 2) * 2 ^ k := by
              exact mul_le_mul_of_nonneg_right hlt.le (by positivity)
          _ = d * 2 ^ (k + 1) := by ring
        rw [min_eq_left hML, min_eq_left hMR]
    rw [backoffFrom, ih (i + 1) (backoffStep p d) hstep, List.range_succ_eq_map]
    simp only [List.map_cons, List.map_map, hhead]
    congr 1
    apply List.map_congr_left
    intro k _
    simp only [Function.comp_apply]
    exact htail k

/-- C4: for every `RetryPolicy` with `max_retries ≥ 0`, `initial_delay ≥ 0`
and `max_delay ≥ initial_delay`, `backoff()` with `jitter = 0` yields exactly
`max_retries` values, the `i`-th equal to
`min (max_delay) (initial_delay · 2^i)`; the sequence is non-decreasing,
every value lies in `[0, max_delay]`, and `max_retries = 0` yields the
empty sequence. -/
theorem claim_C4 (p : RetryPolicy) (draw : Nat → Rat → Rat)
    (h0 : 0 ≤ p.initial_delay) (h1 : p.initial_delay ≤ p.max_delay)
    (hj : p.jitter = 0)
    (hdraw : ∀ i j, 0 ≤ j → -j ≤ draw i j ∧ draw i j ≤ j) :
    (p.backoff draw).length = p.max_retries ∧
    p.backoff draw = (List.range p.max_retries).map
        (fun i => min p.max_delay (p.initial_delay * 2 ^ i)) ∧
    (p.backoff draw).Pairwise (· ≤ ·) ∧
    (∀ x ∈ p.backoff draw, 0 ≤ x ∧ x ≤ p.max_delay) ∧
    (p.max_retries = 0 → p.backoff draw = []) := by
  have hM : 0 ≤ p.max_delay := le_trans h0 h1
  have key : p.backoff draw = (List.range p.max_retries).map
      (fun i => min p.max_delay (p.initial_delay * 2 ^ i)) :=
    backoffFrom_zero_jitter p draw hj hdraw hM p.max_retries 0 p.initial_delay h0
  refine ⟨backoff_length p draw, key, ?_, ?_, ?_⟩
  · rw [key]
    refine List.Pairwise.map _ ?_ (List.pairwise_lt_range _)
    intro a b hab
    refine min_le_min le_rfl ?_
    exact mul_le_mul_of_nonneg_left
      (pow_le_pow_right₀ (by norm_num) hab.le) h0
  · intro x hx
    rw [key] at hx
    rcases List.mem_map.mp hx with ⟨i, _, rfl⟩
    refine ⟨le_min hM (by positivity), min_le_left _ _⟩
  · intro h
    rw [key, h]
    rfl

/-- Witness for C4 at the spec's concrete scenario
`RetryPolicy(5, 0.1, 0.5, jitter forced to 0)`, which must yield
`[0.1, 0.2, 0.4, 0.5, 0.5]`. -/
theorem claim_C4_witness :
    RetryPolicy.backoff ⟨5, 1/10, 1/2, 0⟩ (fun _ _ => 0)
      = [1/10, 1/5, 2/5, 1/2, 1/2] := by
  have h := claim_C4 ⟨5, 1/10, 1/2, 0⟩ (fun _ _ => 0)
    (by norm_num) (by norm_num) rfl
    (by intro i j hj; refine ⟨?_, ?_⟩ <;> simp <;> linarith)
  rw [h.2.1]
  norm_num [List.range_succ, min_def]

theorem boolIfOr (c r : Bool) : (if c then true else r) = (c || r) := by
  cases c <;> simp

theorem boolIfAnd (c r : Bool) : (if c then r else false) = (c && r) := by
  cases c <;> simp

/-- C3: `dbapi_classifier` returns `true` exactly when one of the spec's
signals matches (SQLSTATE codes, Postgres messages, MySQL error numbers,
MySQL/SQLite message substrings, or the operational/timeout type-name
fallback), and `false` otherwise; in particular SQLSTATE `40P01` yields
`true` and SQLSTATE `42601` yields `false`. -/
theorem claim_C3 :
    (∀ e : PyErr, dbapi_classifier e = dbapi_classifier_spec e)
    ∧ dbapi_classifier (pgCodeErr ("40P01")) = true
    ∧ dbapi_classifier (pgCodeErr ("42601")) = false := by
  refine ⟨?_, by decide, by decide⟩
  intro e
  unfold dbapi_classifier dbapi_classifier_spec
  simp only [boolIfOr, boolIfAnd, Bool.or_false, Bool.and_true, Bool.or_assoc]

/-- Case analysis of one loop iteration: either the loop ends at this
attempt (success, non-transient, out-of-`retry_on`, classifier raise, or
sentinel reached) having consumed one attempt, no sleep, at most one
classifier call and the attempt's wall time — or the failure was
transient and the loop sleeps `d` and continues. -/
theorem executeFrom_cons (env : ExecEnv α E) (tmo : Option Rat)
    (d? : Option Rat) (rest : List (Option Rat)) (k : Nat) :
    (∃ o cc, cc ≤ 1 ∧ executeFrom env tmo (d? :: rest) k
        = (o, ⟨1, 0, cc, (attemptRes env tmo k).2⟩))
    ∨ (∃ d cc, d? = some d ∧ cc ≤ 1 ∧
        executeFrom env tmo (d? :: rest) k
          = ((executeFrom env tmo rest (k + 1)).1,
             ⟨(executeFrom env tmo rest (k + 1)).2.attempts + 1,
              (executeFrom env tmo rest (k + 1)).2.sleeps + 1,
              (executeFrom env tmo rest (k + 1)).2.classifierCalls + cc,
              (executeFrom env tmo rest (k + 1)).2.elapsed
                + (attemptRes env tmo k).2 + d⟩)) := by
  rcases h : (attemptRes env tmo k).1 with exc | v
  case ok => exact Or.inl ⟨Outcome.ok v, 0, by omega, by simp [executeFrom, h]⟩
  case error =>
    by_cases hr : env.retryOn exc
    · rcases hc : env.classifier with - | c
      · rcases d? with - | d
        · exact Or.inl ⟨termOutcome env exc, 0, by omega,
            by simp [executeFrom, h, hr, hc]⟩
        · exact Or.inr ⟨d, 0, rfl, by omega, by simp [executeFrom, h, hr, hc]⟩
      · rcases ht : c exc with e2 | t
        · exact Or.inl ⟨Outcome.raised e2, 1, le_rfl,
            by simp [executeFrom, h, hr, hc, ht]⟩
        · rcases t with - | -
          · exact Or.inl ⟨termOutcome env exc, 1, le_rfl,
              by simp [executeFrom, h, hr, hc, ht]⟩
          · rcases d? with - | d
            · exact Or.inl ⟨termOutcome env exc, 1, le_rfl,
                by simp [executeFrom, h, hr, hc, ht]⟩
            · exact Or.inr ⟨d, 1, rfl, le_rfl,
                by simp [executeFrom, h, hr, hc, ht]⟩
    · by_cases hi : env.isExc exc
      · exact Or.inl ⟨termOutcome env exc, 0, by omega,
          by simp [executeFrom, h, hr, hi]⟩
      · exact Or.inl ⟨Outcome.raised exc, 0, by omega,
          by simp [executeFrom, h, hr, hi]⟩

theorem executeFrom_stats (env : ExecEnv α E) (tmo : Option Rat) :
    ∀ (ds : List Rat) (k : Nat),
      1 ≤ (executeFrom env tmo (ds.map some ++ [none]) k).2.attempts ∧
      (executeFrom env tmo (ds.map some ++ [none]) k).2.attempts ≤ ds.length + 1 ∧
      (executeFrom env tmo (ds.map some ++ [none]) k).2.sleeps + 1
        = (executeFrom env tmo (ds.map some ++ [none]) k).2.attempts ∧
      (executeFrom env tmo (ds.map some ++ [none]) k).2.classifierCalls
        ≤ (executeFrom env tmo (ds.map some ++ [none]) k).2.attempts := by
  intro ds
  induction ds with
  | nil =>
    intro k
    simp only [List.map_nil, List.nil_append, List.length_nil]
    rcases executeFrom_cons env tmo none [] k with ⟨o, cc, hcc, heq⟩ | ⟨d, cc, hd, -, -⟩
    · rw [heq]
      exact ⟨le_rfl, le_rfl, rfl, hcc⟩
    · cases hd
  | cons d ds ih =>
    intro k
    simp only [List.map_cons, List.cons_append, List.length_cons]
    rcases executeFrom_cons env tmo (some d) (ds.map some ++ [none]) k
      with ⟨o, cc, hcc, heq⟩ | ⟨d', cc, -, hcc, heq⟩
    · rw [heq]
      exact ⟨le_rfl, Nat.le_add_left 1 (ds.length + 1), rfl, hcc⟩
    · rw [heq]
      rcases ih (k + 1) with ⟨h1, h2, h3, h4⟩
      exact ⟨Nat.succ_le_succ (Nat.zero_le _), Nat.succ_le_succ h2,
        congrArg (fun n => n + 1) h3, Nat.add_le_add h4 hcc⟩

theorem optSum_nonneg : ∀ L : List (Option Rat),
    (∀ d, some d ∈ L → 0 ≤ d) → 0 ≤ optSum L := by
  intro L
  induction L with
  | nil => intro _; simp [optSum]
  | cons x r ih =>
    intro h
    rcases x with - | d
    · exact ih (fun d hd => h d (List.mem_cons_of_mem _ hd))
    · have hd : (0 : Rat) ≤ d := h d (List.mem_cons_self _ _)
      have hr : (0 : Rat) ≤ optSum r := ih (fun d hd => h d (List.mem_cons_of_mem _ hd))
      simpa [optSum] using add_nonneg hd hr

theorem optSum_map (ds : List Rat) : optSum (ds.map some ++ [none]) = ds.sum := by
  induction ds with
  | nil => simp [optSum]
  | cons d r ih => simp [optSum, ih]

theorem attemptRes_time_le (env : ExecEnv α E) (T : Rat) (k : Nat) :
    (attemptRes env (some T) k).2 ≤ T := by
  unfold attemptRes
  by_cases h : env.dur k ≤ T <;> simp [h]

/-- With `overall_timeout_s = T`, every attempt consumes at most `T`
seconds, so the whole call consumes at most `attempts · T` plus the
consumed backoff sleeps. -/
theorem executeFrom_elapsed (env : ExecEnv α E) (T : Rat) :
    ∀ (L : List (Option Rat)) (k : Nat), (∀ d, some d ∈ L → 0 ≤ d) →
      (executeFrom env (some T) L k).2.elapsed
        ≤ (executeFrom env (some T) L k).2.attempts * T + optSum L := by
  intro L
  induction L with
  | nil =>
    intro k _
    simp [executeFrom, optSum]
  | cons d? rest ih =>
    intro k h
    have hrest : ∀ d, some d ∈ rest → 0 ≤ d :=
      fun d hd => h d (List.mem_cons_of_mem _ hd)
    have hsum : 0 ≤ optSum rest := optSum_nonneg rest hrest
    have hatt : (attemptRes env (some T) k).2 ≤ T := attemptRes_time_le env T k
    rcases executeFrom_cons env (some T) d? rest k
      with ⟨o, cc, -, heq⟩ | ⟨d, cc, hd, -, heq⟩
    · rw [heq]
      have h0 : 0 ≤ optSum (d? :: rest) := optSum_nonneg _ h
      simp only []
      calc (attemptRes env (some T) k).2 ≤ T := hatt
      _ = 1 * T := (one_mul T).symm
      _ ≤ 1 * T + optSum (d? :: rest) := le_add_of_nonneg_right h0
    · subst hd
      rw [heq]
      have hd0 : 0 ≤ d := h d (List.mem_cons_self _ _)
      have hrec := ih (k + 1) hrest
      simp only [optSum]
      push_cast
      calc (executeFrom env (some T) rest (k + 1)).2.elapsed
            + (attemptRes env (some T) k).2 + d
          ≤ ((executeFrom env (some T) rest (k + 1)).2.attempts * T + optSum rest)
            + T + d := by
            have := add_le_add (add_le_add hrec hatt) (le_refl d)
            simpa using this
      _ = ((executeFrom env (some T) rest (k + 1)).2.attempts + 1) * T
            + (d + optSum rest) := by ring

/-- One transient step: a transient failure at attempt `k` followed by a
remaining delay makes the loop sleep and continue at attempt `k + 1`. -/
theorem executeFrom_transient_step (env : ExecEnv α E) (tmo : Option Rat)
    (d : Rat) (rest : List (Option Rat)) (k : Nat) (e : E)
    (he : (attemptRes env tmo k).1 = Except.error e)
    (hr : env.retryOn e = true)
    (hc : ∀ c, env.classifier = some c → c e = Except.ok true) :
    (executeFrom env tmo (some d :: rest) k).1
      = (executeFrom env tmo rest (k + 1)).1 := by
  rcases hcl : env.classifier with - | c
  · simp [executeFrom, he, hr, hcl]
  · simp [executeFrom, he, hr, hcl, hc c hcl]

/-- Exhaustion: if every attempt fails transiently, the loop runs through
the whole delay list and terminates at the sentinel with the failure of
the final attempt. -/
theorem executeFrom_exhaust (env : ExecEnv α E) (tmo : Option Rat) (es : Nat → E)
    (h : ∀ j, transientFail env tmo j (es j)) :
    ∀ (ds : List Rat) (k : Nat),
      (executeFrom env tmo (ds.map some ++ [none]) k).1
        = termOutcome env (es (k + ds.length)) := by
  intro ds
  induction ds with
  | nil =>
    intro k
    rcases h k with ⟨he, hr, hc⟩
    rcases hcl : env.classifier with - | c
    · simp [executeFrom, he, hr, hcl]
    · simp [executeFrom, he, hr, hcl, hc c hcl]
  | cons d ds ih =>
    intro k
    rcases h k with ⟨he, hr, hc⟩
    rw [List.map_cons, List.cons_append,
      executeFrom_transient_step env tmo d (ds.map some ++ [none]) k (es k) he hr hc,
      ih (k + 1)]
    have harg : k + 1 + ds.length = k + (d :: ds).length := by
      simp only [List.length_cons]
      omega
    rw [harg]

/-- C6: for every call to `execute` with `policy.max_retries = n`, the
number of attempts lies in `[1, n + 1]`, the number of backoff sleeps
equals the number of attempts minus one, and the classifier is consulted
at most `n + 1` times. -/
theorem claim_C6 (env : ExecEnv α E) (tmo : Option Rat) (p : RetryPolicy)
    (draw : Nat → Rat → Rat) :
    1 ≤ (execute env tmo (p.backoff draw)).2.attempts ∧
    (execute env tmo (p.backoff draw)).2.attempts ≤ p.max_retries + 1 ∧
    (execute env tmo (p.backoff draw)).2.sleeps + 1
      = (execute env tmo (p.backoff draw)).2.attempts ∧
    (execute env tmo (p.backoff draw)).2.classifierCalls ≤ p.max_retries + 1 := by
  rcases executeFrom_stats env tmo (p.backoff draw) 0 with ⟨h1, h2, h3, h4⟩
  rw [backoff_length] at h2
  exact ⟨h1, h2, h3, le_trans h4 h2⟩

/-- C5: when `execute` ends in terminal failure — the classifier judges
the first failure non-transient, or every attempt fails transiently until
the delays are exhausted — then with `raises = true` the last observed
failure is re-raised unwrapped, and with `raises = false` the `default`
value is returned; a classifier returning `false` on the first failure
yields exactly one attempt (and no sleep, one classifier call). -/
theorem claim_C5 (env : ExecEnv α E) (tmo : Option Rat) (delays : List Rat) :
    (∀ (e : E) (c : E → Except E Bool),
       (attemptRes env tmo 0).1 = Except.error e → env.retryOn e = true →
       env.classifier = some c → c e = Except.ok false →
       execute env tmo delays
         = ((if env.raises then Outcome.raised e else Outcome.ok env.dflt),
            ⟨1, 0, 1, (attemptRes env tmo 0).2⟩)) ∧
    (∀ es : Nat → E, (∀ j, transientFail env tmo j (es j)) →
       (execute env tmo delays).1
         = if env.raises then Outcome.raised (es delays.length)
           else Outcome.ok env.dflt) := by
  constructor
  · intro e c he hr hc hfalse
    cases delays with
    | nil => simp [execute, executeFrom, he, hr, hc, hfalse, termOutcome]
    | cons d rest => simp [execute, executeFrom, he, hr, hc, hfalse, termOutcome]
  · intro es h
    have := executeFrom_exhaust env tmo es h delays 0
    rw [Nat.zero_add] at this
    simpa [execute, termOutcome] using this

theorem claim_C5_witness :
    execute envC5a none [] = (Outcome.raised ("boom"), ⟨1, 0, 1, 0⟩) ∧
    (execute envC5b none [1, 2]).1 = Outcome.ok 42 := by
  constructor
  · have h := (claim_C5 envC5a none []).1 ("boom") (fun _ => Except.ok false)
      rfl rfl rfl rfl
    exact h.trans (by decide)
  · have h := (claim_C5 envC5b none [1, 2]).2 (fun _ => "always")
      (fun j => ⟨rfl, rfl, by intro c hc; cases hc; rfl⟩)
    exact h.trans (by decide)

/-- Counterexample to C2 as stated: an error of a type outside `retry_on`
(but still an `Exception`) raised under `raises = false` does *not*
propagate — `execute` returns the default instead (`except Exception`
branch of `core.py`, lines 87-90). -/
theorem claim_C2_counterexample :
    (execute envC2 none []).1 = Outcome.ok 7 ∧
    (execute envC2 none []).1 ≠ Outcome.raised ("oops") := by
  decide

/-- C2 (amended): a failure whose type is outside `retry_on` causes
exactly one attempt, no sleep and no classifier consultation; it
propagates when `raises = true`, and also when it is not an `Exception`
instance; but with `raises = false` an `Exception` outside `retry_on` is
swallowed and the default is returned. -/
theorem claim_C2_amended (env : ExecEnv α E) (tmo : Option Rat)
    (delays : List Rat) (e : E)
    (he : (attemptRes env tmo 0).1 = Except.error e)
    (hr : env.retryOn e = false) :
    execute env tmo delays
      = ((if env.isExc e then
            if env.raises then Outcome.raised e else Outcome.ok env.dflt
          else Outcome.raised e),
         ⟨1, 0, 0, (attemptRes env tmo 0).2⟩) := by
  by_cases hi : env.isExc e <;>
    cases delays with
    | nil => simp [execute, executeFrom, he, hr, hi, termOutcome]
    | cons d rest => simp [execute, executeFrom, he, hr, hi, termOutcome]

theorem claim_C2_witness :
    execute envC2 none [] = (Outcome.ok 7, ⟨1, 0, 0, 0⟩) := by
  have h := claim_C2_amended envC2 none [] ("oops") rfl rfl
  exact h.trans (by decide)

/-- Counterexample to C9 as stated: when the classifier itself raises,
the outcome is *not* the same as returning `false` — the classifier's
exception propagates out of `execute` (here with `raises = false` and
`default = 7`, neither the default nor the original failure surfaces). -/
theorem claim_C9_counterexample :
    (execute envC9 none []).1 = Outcome.raised ("clsboom") ∧
    (execute envC9 none []).1 ≠ Outcome.ok 7 ∧
    (execute envC9 none []).1 ≠ Outcome.raised ("orig") := by
  decide

/-- C9 (amended): `execute` does not guard the classifier call; if the
classifier raises on the first failure, its exception propagates out of
`execute` — regardless of `raises` — after exactly one attempt, no sleep
and one classifier consultation.  (The reference `dbapi_classifier`
guards its own fallible conversions so as never to raise.) -/
theorem claim_C9_amended (env : ExecEnv α E) (tmo : Option Rat)
    (delays : List Rat) (e e2 : E) (c : E → Except E Bool)
    (he : (attemptRes env tmo 0).1 = Except.error e)
    (hr : env.retryOn e = true)
    (hc : env.classifier = some c)
    (hraise : c e = Except.error e2) :
    execute env tmo delays
      = (Outcome.raised e2, ⟨1, 0, 1, (attemptRes env tmo 0).2⟩) := by
  cases delays with
  | nil => simp [execute, executeFrom, he, hr, hc, hraise]
  | cons d rest => simp [execute, executeFrom, he, hr, hc, hraise]

theorem claim_C9_witness :
    execute envC9 none [] = (Outcome.raised ("clsboom"), ⟨1, 0, 1, 0⟩) := by
  have h := claim_C9_amended envC9 none [] ("orig") ("clsboom")
    (fun _ => Except.error ("clsboom")) rfl rfl rfl rfl
  exact h.trans (by decide)

/-- C1 (amended): `_with_deadline` passes `overall_timeout_s` afresh to
each attempt (`asyncio.wait_for(coro, timeout=overall_timeout_s)` inside
the loop), so the deadline bounds every *single* attempt — an in-flight
attempt that would run longer than `T` is aborted after `T` seconds with
a timeout failure — while the whole call is bounded only by
`attempts · T` plus the backoff sleeps, not by `T` itself. -/
theorem claim_C1_amended (env : ExecEnv α E) (T : Rat) (delays : List Rat)
    (hd : ∀ d ∈ delays, 0 ≤ d) :
    (execute env (some T) delays).2.elapsed
      ≤ (execute env (some T) delays).2.attempts * T + delays.sum ∧
    (∀ k, T < env.dur k →
      attemptRes env (some T) k = (Except.error env.timeoutErr, T)) := by
  constructor
  · have h := executeFrom_elapsed env T (delays.map some ++ [none]) 0 ?_
    · rw [optSum_map] at h
      exact h
    · intro d hmem
      simp only [List.mem_append, List.mem_map, List.mem_singleton,
        Option.some.injEq, reduceCtorEq, or_false] at hmem
      rcases hmem with ⟨x, hx, rfl⟩
      exact hd x hx
  · intro k hk
    simp [attemptRes, hk.not_le]

/-- Counterexample to C1 as stated: with `overall_timeout_s = 10` the
call consumes 30 s of wall time (10 s first attempt + 10 s sleep + 10 s
second attempt) — three times the deadline, far beyond one scheduling
quantum (taking a generous 1 s for the quantum). -/
theorem claim_C1_counterexample :
    execute envC1 (some 10) [10]
      = (Outcome.raised ("tmo"), ⟨2, 1, 0, 30⟩) ∧
    ¬((execute envC1 (some 10) [10]).2.elapsed ≤ 10 + 1) := by
  have h : execute envC1 (some 10) [10]
      = (Outcome.raised ("tmo"), ⟨2, 1, 0, 30⟩) := by
    norm_num [execute, executeFrom, attemptRes, envC1, termOutcome]
  refine ⟨h, ?_⟩
  rw [h]
  norm_num

theorem claim_C1_witness :
    (execute envC1 (some 10) [10]).2.elapsed
      ≤ (execute envC1 (some 10) [10]).2.attempts * 10 + ([] ++ [(10 : Rat)]).sum ∧
    (10 : Rat) < envC1.dur 0 ∧
    attemptRes envC1 (some 10) 0 = (Except.error envC1.timeoutErr, 10) := by
  have h := claim_C1_amended envC1 10 [10] (by norm_num)
  exact ⟨by simpa using h.1, by norm_num [envC1], h.2 0 (by norm_num [envC1])⟩

/-- C7: whenever the user body raises inside `attempt_scope_sync` (scope
entry having succeeded), the original body exception is what propagates
out of the scope, the outer `ROLLBACK` is always attempted, and when a
savepoint had been created a `ROLLBACK TO SAVEPOINT` is issued first —
regardless of which cleanup statements or the rollback itself fail
(their failures are suppressed and never replace the body's failure). -/
theorem claim_C7 (conn : Conn) (read_only : Bool) (backend suffix : String)
    (b : β) (hbegin : conn.failOn ("BEGIN") = false) :
    (attempt_scope_sync conn read_only backend suffix (Except.error b)).2
      = Except.error (ScopeErr.body b) ∧
    SqlEvent.rollback
      ∈ (attempt_scope_sync conn read_only backend suffix (Except.error b)).1 ∧
    (((conn.supports_savepoint && !conn.fail_savepoint)
        && !(conn.failOn ("SAVEPOINT " ++ ("dbop_" ++ suffix)))) = true →
      SqlEvent.sql ("ROLLBACK TO SAVEPOINT " ++ ("dbop_" ++ suffix))
        ∈ (attempt_scope_sync conn read_only backend suffix (Except.error b)).1) := by
  by_cases hsp : ((conn.supports_savepoint && !conn.fail_savepoint)
      && !(conn.failOn ("SAVEPOINT " ++ ("dbop_" ++ suffix)))) = true
  · have hsp2 := hsp
    simp only [Bool.and_eq_true, Bool.not_eq_true'] at hsp2
    obtain ⟨⟨h1, h2⟩, h3⟩ := hsp2
    refine ⟨?_, ?_, fun _ => ?_⟩ <;> simp [attempt_scope_sync, hbegin, h1, h2, h3]
  · refine ⟨?_, ?_, fun h => absurd h hsp⟩ <;>
      simp [attempt_scope_sync, hbegin, Bool.eq_false_iff.mpr hsp]

theorem claim_C7_witness :
    (attempt_scope_sync connC7 false ("") ("x") (Except.error 5 : Except Nat Unit)).2
      = Except.error (ScopeErr.body 5) ∧
    SqlEvent.rollback
      ∈ (attempt_scope_sync connC7 false ("") ("x") (Except.error 5 : Except Nat Unit)).1 ∧
    SqlEvent.sql ("ROLLBACK TO SAVEPOINT " ++ ("dbop_" ++ "x"))
      ∈ (attempt_scope_sync connC7 false ("") ("x") (Except.error 5 : Except Nat Unit)).1 := by
  have h := claim_C7 connC7 false ("") ("x") (5 : Nat) rfl
  exact ⟨h.1, h.2.1, h.2.2 (by decide)⟩

/-- Counterexample to C8 as stated: with the backend left unset (the
adapter's default `backend=None`), a read-only scope over a clean no-op
body does *not* emit `SET TRANSACTION READ ONLY` — the hint is applied
only for the postgresql/mysql/mariadb backends. -/
theorem claim_C8_counterexample :
    (attempt_scope_sync connClean true ("") ("x") (Except.ok () : Except Unit Unit)).1
      = [SqlEvent.sql ("BEGIN"), SqlEvent.sql ("SAVEPOINT dbop_x"),
         SqlEvent.sql ("RELEASE SAVEPOINT dbop_x"), SqlEvent.commit] ∧
    SqlEvent.sql ("SET TRANSACTION READ ONLY")
      ∉ (attempt_scope_sync connClean true ("") ("x") (Except.ok () : Except Unit Unit)).1 := by
  decide

/-- C8 (amended): for a backend in {postgresql, mysql, mariadb} and a
clean connection, a scope entered with `read_only = true` over a
successful no-op body emits, in order, `BEGIN`,
`SET TRANSACTION READ ONLY`, `SAVEPOINT dbop_<suffix>`,
`RELEASE SAVEPOINT dbop_<suffix>`, `COMMIT`; and when the body fails
(here with `read_only = false`): `BEGIN`, `SAVEPOINT`,
`ROLLBACK TO SAVEPOINT`, `ROLLBACK`.  For other or unset backends the
`SET TRANSACTION READ ONLY` statement is skipped. -/
theorem claim_C8_amended (conn : Conn) (backend suffix : String) (b : β)
    (hsp : conn.supports_savepoint = true) (hfs : conn.fail_savepoint = false)
    (hfail : ∀ s, conn.failOn s = false)
    (hcommit : conn.commitFails = false)
    (hbe : ["postgresql", "mysql", "mariadb"].contains (lowerStr backend) = true) :
    attempt_scope_sync conn true backend suffix (Except.ok () : Except β Unit)
      = ([SqlEvent.sql ("BEGIN"), SqlEvent.sql ("SET TRANSACTION READ ONLY"),
          SqlEvent.sql ("SAVEPOINT " ++ ("dbop_" ++ suffix)),
          SqlEvent.sql ("RELEASE SAVEPOINT " ++ ("dbop_" ++ suffix)),
          SqlEvent.commit], Except.ok ()) ∧
    attempt_scope_sync conn false backend suffix (Except.error b)
      = ([SqlEvent.sql ("BEGIN"),
          SqlEvent.sql ("SAVEPOINT " ++ ("dbop_" ++ suffix)),
          SqlEvent.sql ("ROLLBACK TO SAVEPOINT " ++ ("dbop_" ++ suffix)),
          SqlEvent.rollback], Except.error (ScopeErr.body b)) := by
  have hbe2 : lowerStr backend = "postgresql" ∨ lowerStr backend = "mysql"
      ∨ lowerStr backend = "mariadb" := by simpa using hbe
  rcases hbe2 with h | h | h <;>
    constructor <;> simp [attempt_scope_sync, hsp, hfs, hfail, hcommit, h]

theorem claim_C8_witness :
    attempt_scope_sync connClean true ("postgresql") ("x") (Except.ok () : Except Unit Unit)
      = ([SqlEvent.sql ("BEGIN"), SqlEvent.sql ("SET TRANSACTION READ ONLY"),
          SqlEvent.sql ("SAVEPOINT dbop_x"), SqlEvent.sql ("RELEASE SAVEPOINT dbop_x"),
          SqlEvent.commit], Except.ok ()) ∧
    attempt_scope_sync connClean false ("postgresql") ("x") (Except.error ())
      = ([SqlEvent.sql ("BEGIN"), SqlEvent.sql ("SAVEPOINT dbop_x"),
          SqlEvent.sql ("ROLLBACK TO SAVEPOINT dbop_x"), SqlEvent.rollback],
         Except.error (ScopeErr.body ())) := by
  have h := claim_C8_amended connClean ("postgresql") ("x") () rfl rfl
    (fun _ => rfl) rfl (by decide)
  exact ⟨h.1.trans (by decide), h.2.trans (by decide)⟩

/-- C10: when the connection does not support savepoints
(`supports_savepoint` false or `fail_savepoint` true) or the `SAVEPOINT`
statement itself fails, `attempt_scope_sync` silently proceeds without a
savepoint: entering the scope does not raise, the body runs inside the
`BEGIN` transaction, success still calls `conn.commit()` (with no
`RELEASE SAVEPOINT`; a failing commit additionally triggers the
suppressed `conn.rollback()` of the except block before the commit error
propagates), and body failure still calls `conn.rollback()` (with no
`ROLLBACK TO SAVEPOINT`) and re-raises the body's exception. -/
theorem claim_C10 (conn : Conn) (read_only : Bool) (backend suffix : String)
    (b : β) (hbegin : conn.failOn ("BEGIN") = false)
    (hnosp : (conn.supports_savepoint && !conn.fail_savepoint) = false
           ∨ conn.failOn ("SAVEPOINT " ++ ("dbop_" ++ suffix)) = true) :
    attempt_scope_sync conn read_only backend suffix (Except.ok () : Except β Unit)
      = ([SqlEvent.sql ("BEGIN")]
          ++ (if read_only && ["postgresql", "mysql", "mariadb"].contains (lowerStr backend)
              then [SqlEvent.sql ("SET TRANSACTION READ ONLY")] else [])
          ++ (if conn.supports_savepoint && !conn.fail_savepoint
              then [SqlEvent.sql ("SAVEPOINT " ++ ("dbop_" ++ suffix))] else [])
          ++ [SqlEvent.commit]
          ++ (if conn.commitFails then [SqlEvent.rollback] else []),
         if conn.commitFails then Except.error ScopeErr.commitFail
         else Except.ok ()) ∧
    attempt_scope_sync conn read_only backend suffix (Except.error b)
      = ([SqlEvent.sql ("BEGIN")]
          ++ (if read_only && ["postgresql", "mysql", "mariadb"].contains (lowerStr backend)
              then [SqlEvent.sql ("SET TRANSACTION READ ONLY")] else [])
          ++ (if conn.supports_savepoint && !conn.fail_savepoint
              then [SqlEvent.sql ("SAVEPOINT " ++ ("dbop_" ++ suffix))] else [])
          ++ [SqlEvent.rollback],
         Except.error (ScopeErr.body b)) := by
  have hsp : ((conn.supports_savepoint && !conn.fail_savepoint)
      && !conn.failOn ("SAVEPOINT " ++ ("dbop_" ++ suffix))) = false := by
    rcases hnosp with h | h <;> simp [h]
  by_cases hcf : conn.commitFails <;>
    constructor <;> simp [attempt_scope_sync, hbegin, hsp, hcf]

theorem claim_C10_witness :
    attempt_scope_sync connC10 true ("postgresql") ("x") (Except.ok () : Except Nat Unit)
      = ([SqlEvent.sql ("BEGIN"), SqlEvent.sql ("SET TRANSACTION READ ONLY"),
          SqlEvent.commit], Except.ok ()) ∧
    attempt_scope_sync connC10 true ("postgresql") ("x") (Except.error 5)
      = ([SqlEvent.sql ("BEGIN"), SqlEvent.sql ("SET TRANSACTION READ ONLY"),
          SqlEvent.rollback], Except.error (ScopeErr.body 5)) ∧
    attempt_scope_sync connC10b false ("") ("x") (Except.ok () : Except Nat Unit)
      = ([SqlEvent.sql ("BEGIN"), SqlEvent.commit, SqlEvent.rollback],
         Except.error ScopeErr.commitFail) := by
  have h := claim_C10 connC10 true ("postgresql") ("x") (5 : Nat) rfl (Or.inl rfl)
  have h2 := claim_C10 connC10b false ("") ("x") (5 : Nat) rfl (Or.inl rfl)
  exact ⟨h.1.trans (by decide), h.2.trans (by decide), h2.1.trans (by decide)⟩

end Dbop
